import Mathlib

/-!
Verification of the wordfence-cli matching core and path-identification trie.

The definitions below are a shallow embedding of:
  * `wordfence/wordpress/identifier.py` (FileIdentity hierarchy, KnownPath trie,
    FileIdentifier),
  * `wordfence/scanning/matching/matching.py` (Matcher, MatchEngine),
  * `wordfence/scanning/matching/vectorscan.py` (VectorscanMatcherContext,
    VectorscanMatcher),
  * `wordfence/util/vectorscan/bindings.py` (error codes, `_assert_success`,
    `_assert_compilation_success`, `VectorscanCompilerError`, compilation).

Filesystem paths are represented by their `Path.parts` component lists
(`List String`); path normalization (`Path.expanduser().resolve()`) is
filesystem-dependent and is therefore kept abstract where it matters
(`prepare_path` becomes an abstract `prep` function in the `KnownPath`
wrappers) and taken as the identity on already-normalized component lists
for the `FileIdentifier` layer.  Native hyperscan calls and the collaborators
that are not part of the sources (`WordpressSite` discovery,
`VectorscanStreamScanner`, `vectorscan_deserialize`) are modelled as explicit
oracles, following the spec's description of their interfaces.
-/

namespace Wordfence

/-- `FileType` enum from `wordpress/identifier.py`. -/
inductive FileType where
  | CORE
  | PLUGIN
  | THEME
  | UNKNOWN
deriving DecidableEq, Repr

/-- The `local_path` of a `KnownFileIdentity`: the source stores either the
`Path` produced by `path.relative_to(base)` (represented by its component
list) or the plain string `path.name`. -/
inductive LocalPath where
  | rel (parts : List String)
  | name (s : String)
deriving DecidableEq, Repr

/-- The `FileIdentity` class hierarchy from `wordpress/identifier.py`:
`plain` is the base `FileIdentity` (as constructed for unclassified paths),
`group` is `GroupIdentity` and `known` is `KnownFileIdentity`.
`WordpressSite` and `Extension` references are opaque; they are represented
by `Option Nat` handles. -/
inductive Identity where
  | plain (type : FileType) (site : Option Nat) (extension : Option Nat)
  | group (type : FileType) (path : List String) (site : Option Nat)
      (extension : Option Nat) (final : Bool)
  | known (type : FileType) (localPath : LocalPath) (site : Option Nat)
      (extension : Option Nat)
deriving DecidableEq, Repr

/-- The `is_final` methods: base `FileIdentity.is_final` returns `False`,
`GroupIdentity.is_final` returns the `final` field, and
`KnownFileIdentity.is_final` returns `True`. -/
def Identity.isFinal : Identity → Bool
  | .plain _ _ _ => false
  | .group _ _ _ _ f => f
  | .known _ _ _ _ => true

/-- `is_final` lifted to an optional identity, as used by the trie traversal
guard `node.identity is not None and node.identity.is_final()`. -/
def isFinalO : Option Identity → Bool
  | none => false
  | some i => i.isFinal

/-- The `KnownPath` trie node: an optional identity plus a dictionary of
children keyed by path component.  The Python class also carries a `path`
attribute, but no call site ever passes it (every constructed node has
`path = None`), so it is omitted. -/
inductive KnownPath where
  | node (identity : Option Identity) (children : String → Option KnownPath)

/-- The `identity` attribute of a trie node. -/
def KnownPath.identity : KnownPath → Option Identity
  | .node i _ => i

/-- The `children` dictionary of a trie node; a missing key is `none`. -/
def KnownPath.children : KnownPath → String → Option KnownPath
  | .node _ f => f

/-- A freshly constructed `KnownPath()`: no identity, no children. -/
def KnownPath.empty : KnownPath := .node none (fun _ => none)

/-- `children[component] = child` on a children dictionary. -/
def updateChildren (f : String → Option KnownPath) (c : String)
    (child : KnownPath) : String → Option KnownPath :=
  fun c' => if c' = c then some child else f c'

/-- Observation function (not from the source): the identity stored at an
exact position `q` of the trie, `none` when no node exists there or the
node holds no identity. -/
def nodeIdentity : KnownPath → List String → Option Identity
  | t, [] => t.identity
  | t, c :: rest =>
    match t.children c with
    | some child => nodeIdentity child rest
    | none => none

/-- Observation function: whether the node at exact position `q` holds a
final identity. -/
def finalAt (t : KnownPath) (q : List String) : Bool :=
  isFinalO (nodeIdentity t q)

/-- `KnownPath.find_identity`, after path normalization: walk the trie along
the components; stop as soon as the current node holds a final identity or
the next component has no child; return the identity of the node reached. -/
def findIdentity : KnownPath → List String → Option Identity
  | t, [] => t.identity
  | t, c :: rest =>
    if isFinalO t.identity then t.identity
    else
      match t.children c with
      | some child => findIdentity child rest
      | none => t.identity

/-- `KnownPath.set_identity`, after path normalization: create any missing
intermediate nodes along the components and overwrite the identity of the
node at the exact path. -/
def setIdentity : KnownPath → List String → Identity → KnownPath
  | t, [], i => .node (some i) t.children
  | t, c :: rest, i =>
    let child := (t.children c).getD KnownPath.empty
    .node t.identity (updateChildren t.children c (setIdentity child rest i))

/-- `KnownPath.find_identity` including the `prepare_path` normalization
(`path.expanduser().resolve()`), which is abstracted as `prep`. -/
def findIdentityP {α : Type} (prep : α → List String) (t : KnownPath)
    (p : α) : Option Identity :=
  findIdentity t (prep p)

/-- `KnownPath.set_identity` including the `prepare_path` normalization,
abstracted as `prep`. -/
def setIdentityP {α : Type} (prep : α → List String) (t : KnownPath)
    (p : α) (i : Identity) : KnownPath :=
  setIdentity t (prep p) i

/-- `Path.relative_to`: defined exactly when the base's components are a
prefix of the path's components; `none` models the `ValueError` that
`relative_to` raises otherwise. -/
def relativeTo (p b : List String) : Option (List String) :=
  if b <+: p then some (p.drop b.length) else none

/-- `Path.name`: the last path component, or the empty string for the
filesystem root (whose sole component is its anchor `"/"`). -/
def pathName (p : List String) : String :=
  match p.getLast? with
  | none => ""
  | some l => if l = "/" then "" else l

/-- Modelled from the spec: the structured result of the external
installation-discovery collaborator (`WordpressSite(path, is_child_path=True)`
together with `get_all_plugins` / `get_themes`, whose sources are not part of
this snapshot): a discovered extension has a root path and an opaque
`Extension` reference. -/
structure ExtensionInfo where
  path : List String
  ref : Nat
deriving DecidableEq, Repr

/-- Modelled from the spec: a discovered installation descriptor — the
installation root (`site.core_path`), an opaque `WordpressSite` reference,
and the enumerated plugins and themes. -/
structure SiteInfo where
  corePath : List String
  siteRef : Nat
  plugins : List ExtensionInfo
  themes : List ExtensionInfo
deriving DecidableEq, Repr

/-- A discovery oracle: `none` models `WordpressSite` raising
`WordpressException` ("not an installation"). -/
def Discover : Type := List String → Option SiteInfo

/-- Modelled from the spec: discovery treats the queried path as potentially
*inside* an installation (`is_child_path=True`), so a successfully discovered
installation root is an ancestor (component-prefix) of the queried path. -/
def goodDiscover (discover : Discover) : Prop :=
  ∀ p s, discover p = some s → s.corePath <+: p

/-- The seeding performed by `FileIdentifier._identify_new_path` on discovery
success: a non-final core `GroupIdentity` at the installation root, then a
final plugin `GroupIdentity` at each plugin root, then a final theme
`GroupIdentity` at each theme root. -/
def seedSite (t : KnownPath) (s : SiteInfo) : KnownPath :=
  let t1 := setIdentity t s.corePath
    (.group .CORE s.corePath (some s.siteRef) none false)
  let t2 := s.plugins.foldl
    (fun t' pl => setIdentity t' pl.path
      (.group .PLUGIN pl.path (some s.siteRef) (some pl.ref) true)) t1
  s.themes.foldl
    (fun t' th => setIdentity t' th.path
      (.group .THEME th.path (some s.siteRef) (some th.ref) true)) t2

/-- `FileIdentifier._identify_new_path`: discovery success seeds the site
identities; a `WordpressException` (discovery failure) seeds a plain
`FileIdentity(UNKNOWN)` at the exact queried path. -/
def identifyNewPath (discover : Discover) (t : KnownPath)
    (p : List String) : KnownPath :=
  match discover p with
  | some s => seedSite t s
  | none => setIdentity t p (.plain .UNKNOWN none none)

/-- The body of `FileIdentifier.identify` with `identify_new=False` (which is
also the shape of its trailing resolution code): look the path up; `None`
yields a fresh `FileIdentity(UNKNOWN)`; a `GroupIdentity` is converted to a
`KnownFileIdentity` (using `path.name` when the queried path equals the
group's base path and `path.relative_to(base)` otherwise) which is cached at
the exact queried path; any other identity is returned unchanged.  A result
of `none` models the uncaught `ValueError` from `relative_to` when the
group's base is not a prefix of the path. -/
def identifyKnown (t : KnownPath) (p : List String) :
    Option Identity × KnownPath :=
  match findIdentity t p with
  | none => (some (.plain .UNKNOWN none none), t)
  | some (.group ty b site ext _final) =>
    if p = b then
      let ki : Identity := .known ty (.name (pathName p)) site ext
      (some ki, setIdentity t p ki)
    else
      match relativeTo p b with
      | some suffix =>
        let ki : Identity := .known ty (.rel suffix) site ext
        (some ki, setIdentity t p ki)
      | none => (none, t)
  | some i => (some i, t)

/-- `FileIdentifier.identify`, instrumented with the number of discovery
invocations it performs (the final `Nat`).  When the lookup fails and
`identify_new` is `True`, the source seeds the trie via
`_identify_new_path` (exactly one discovery attempt) and re-enters itself
with `identify_new=False`; that recursive call, and every branch in which an
identity was found, is `identifyKnown` (which re-runs the pure lookup the
source already performed). -/
def identifyC (discover : Discover) (t : KnownPath) (p : List String)
    (identifyNew : Bool) : (Option Identity × KnownPath) × Nat :=
  match findIdentity t p, identifyNew with
  | none, true => (identifyKnown (identifyNewPath discover t p) p, 1)
  | none, false => ((some (.plain .UNKNOWN none none), t), 0)
  | some _, _ => (identifyKnown t p, 0)

/-- `FileIdentifier.identify`: the returned identity (`none` = uncaught
`ValueError`) and the trie after the call. -/
def identify (discover : Discover) (t : KnownPath) (p : List String)
    (identifyNew : Bool) : Option Identity × KnownPath :=
  (identifyC discover t p identifyNew).1

/-- One `FileIdentifier.identify` call in an operation sequence. -/
structure FIOp where
  path : List String
  identifyNew : Bool

/-- The trie after one `identify` call. -/
def applyOp (discover : Discover) (t : KnownPath) (op : FIOp) : KnownPath :=
  (identify discover t op.path op.identifyNew).2

/-- The trie after a sequence of `identify` calls. -/
def applyOps (discover : Discover) (t : KnownPath) (ops : List FIOp) :
    KnownPath :=
  ops.foldl (applyOp discover) t

/-- `VectorscanErrorType` enum from `util/vectorscan/bindings.py`. -/
inductive VectorscanErrorType where
  | SUCCESS
  | INVALID
  | NOMEM
  | SCAN_TERMINATED
  | COMPILER_ERROR
  | DB_VERSION_ERROR
  | DB_MODE_ERROR
  | BAD_ALIGN
  | BAD_ALLOC
  | SCRATCH_IN_USE
  | ARCH_ERROR
  | INSUFFICIENT_SPACE
  | UNKNOWN_ERROR
deriving DecidableEq, Repr, Fintype

/-- The integer value of each `VectorscanErrorType` member (note the gap:
no member has value `-7`). -/
def VectorscanErrorType.toCode : VectorscanErrorType → Int
  | .SUCCESS => 0
  | .INVALID => -1
  | .NOMEM => -2
  | .SCAN_TERMINATED => -3
  | .COMPILER_ERROR => -4
  | .DB_VERSION_ERROR => -5
  | .DB_MODE_ERROR => -6
  | .BAD_ALIGN => -8
  | .BAD_ALLOC => -9
  | .SCRATCH_IN_USE => -10
  | .ARCH_ERROR => -11
  | .INSUFFICIENT_SPACE => -12
  | .UNKNOWN_ERROR => -13

/-- All enum members, in declaration order. -/
def vectorscanErrorTypes : List VectorscanErrorType :=
  [.SUCCESS, .INVALID, .NOMEM, .SCAN_TERMINATED, .COMPILER_ERROR,
   .DB_VERSION_ERROR, .DB_MODE_ERROR, .BAD_ALIGN, .BAD_ALLOC,
   .SCRATCH_IN_USE, .ARCH_ERROR, .INSUFFICIENT_SPACE, .UNKNOWN_ERROR]

/-- `VectorscanErrorType(value)`: the member with the given integer value,
or `none` for the `ValueError` Python raises on an unknown value. -/
def VectorscanErrorType.ofCode (c : Int) : Option VectorscanErrorType :=
  vectorscanErrorTypes.find? (fun et => et.toCode == c)

/-- A positional argument retained in a raised exception's `args` tuple.
`BaseException.__new__` stores the constructor's positional arguments in
`args` before any `__init__` runs; here an argument is either the
`VectorscanErrorType` member passed to `VectorscanError(...)` or the
diagnostic string passed to `VectorscanCompilerError(...)`. -/
inductive ExceptionArg where
  | code (et : VectorscanErrorType)
  | text (s : String)
deriving DecidableEq, Repr

/-- A raised `VectorscanError` object: the `error` member set by
`VectorscanError.__init__`, whether the object is the
`VectorscanCompilerError` subclass, and the `args` tuple stored by
`BaseException.__new__` from the constructor call.
`VectorscanError.__init__` never calls `Exception.__init__`, so `args` is
never reset, and `str(e)` of a single-argument exception renders that
argument. -/
structure VectorscanErrorObj where
  error : VectorscanErrorType
  compilerSubclass : Bool
  args : List ExceptionArg
deriving DecidableEq, Repr

/-- `VectorscanError(error)` construction: `__new__` stores
`args = (error,)`, then `__init__` sets the `error` member. -/
def vectorscanErrorMk (et : VectorscanErrorType) : VectorscanErrorObj :=
  { error := et, compilerSubclass := false, args := [.code et] }

/-- `VectorscanCompilerError(message)` construction: `__new__` stores
`args = (message,)`; `__init__` then passes only `COMPILER_ERROR` to
`VectorscanError.__init__` (its `message` parameter is not separately
assigned to an attribute), so the object carries the diagnostic through
`args` — exposed by `str(e)` — alongside the `COMPILER_ERROR` code. -/
def vectorscanCompilerErrorMk (message : String) : VectorscanErrorObj :=
  { error := .COMPILER_ERROR, compilerSubclass := true,
    args := [.text message] }

/-- `_assert_success` on an integer return code (the `_hs_error` isinstance
branch is never taken for a plain Python `int`): convert the code to a
`VectorscanErrorType`, normalizing an unknown value to `UNKNOWN_ERROR`, then
raise (`some`) unless the result is `SUCCESS`. -/
def assertSuccess (code : Int) : Option VectorscanErrorObj :=
  let et := (VectorscanErrorType.ofCode code).getD .UNKNOWN_ERROR
  if et = .SUCCESS then none else some (vectorscanErrorMk et)

/-- `_assert_compilation_success`: run `_assert_success`; if it raised a
`COMPILER_ERROR`, re-raise it as a `VectorscanCompilerError` built from the
backend's `compiler_error.contents.message`; otherwise re-raise as-is. -/
def assertCompilationSuccess (code : Int) (message : String) :
    Option VectorscanErrorObj :=
  match assertSuccess code with
  | none => none
  | some e =>
    if e.error = .COMPILER_ERROR then some (vectorscanCompilerErrorMk message)
    else some e

/-- `VectorscanMode` enum values. -/
def VectorscanMode.BLOCK : Nat := 1
/-- `VectorscanMode.STREAM`. -/
def VectorscanMode.STREAM : Nat := 2
/-- `VectorscanFlags.CASELESS`. -/
def VectorscanFlags.CASELESS : Nat := 1
/-- `VectorscanFlags.SINGLEMATCH`. -/
def VectorscanFlags.SINGLEMATCH : Nat := 8
/-- `VectorscanFlags.ALLOWEMPTY`. -/
def VectorscanFlags.ALLOWEMPTY : Nat := 16

/-- The result of the native `hs_compile_multi` call: a return code, the
diagnostic message held by the compile-error struct (meaningful when the
code is `COMPILER_ERROR`), and the produced database handle (meaningful when
the code is `SUCCESS`). -/
structure HsCompileResult where
  code : Int
  message : String
  database : Nat
deriving DecidableEq, Repr

/-- The native hyperscan library, abstracted as oracles: `compileMulti` is
`hs_compile_multi` (patterns, mode, flags); `deserializeDb` is the native
database deserialization used by `vectorscan_deserialize` (whose Python
wrapper is not part of this snapshot), returning a code and a handle. -/
structure HsBackend where
  compileMulti : List (Nat × String) → Nat → Nat → HsCompileResult
  deserializeDb : List Nat → Int × Nat

/-- `vectorscan_compile`: invoke the native compiler, then
`_assert_compilation_success`; on success return the database handle. -/
def vectorscanCompile (hs : HsBackend) (patterns : List (Nat × String))
    (mode : Nat) (flags : Nat) : Except VectorscanErrorObj Nat :=
  let r := hs.compileMulti patterns mode flags
  match assertCompilationSuccess r.code r.message with
  | some e => .error e
  | none => .ok r.database

/-- Modelled from the spec: `vectorscan_deserialize` (not part of this
snapshot) — deserialize a binary blob via the native call and
`_assert_success` its return code. -/
def vectorscanDeserialize (hs : HsBackend) (data : List Nat) :
    Except VectorscanErrorObj Nat :=
  let r := hs.deserializeDb data
  match assertSuccess r.1 with
  | some e => .error e
  | none => .ok r.2

/-- `VectorscanCompiler.compile`: build the id→rule pattern dictionary from
the signature set and compile it in `STREAM` mode with
`CASELESS | SINGLEMATCH | ALLOWEMPTY`. -/
def vectorscanCompileSignatures (hs : HsBackend)
    (signatures : List (Nat × String)) : Except VectorscanErrorObj Nat :=
  vectorscanCompile hs signatures VectorscanMode.STREAM
    (VectorscanFlags.CASELESS ||| VectorscanFlags.SINGLEMATCH |||
      VectorscanFlags.ALLOWEMPTY)

/-- Which database-acquisition path `_initialize_database` took. -/
inductive Acquisition where
  | compiled
  | deserialized
deriving DecidableEq, Repr

/-- The backend-specific mutable fields of a `VectorscanMatcher` beyond the
generic `Matcher` fields: the optional precompiled blob, and the database
and scanner handles. -/
structure VSState where
  databaseSource : Option (List Nat)
  database : Option Nat
  scanner : Option Nat
deriving DecidableEq, Repr

/-- The generic `Matcher` state from `matching/matching.py`, with the
backend subclass's extra fields in `backend`. -/
structure Matcher (σ : Type) where
  signatureSet : List (Nat × String)
  timeout : Nat
  matchAll : Bool
  lazy : Bool
  prepared : Bool
  backend : σ

/-- Python truthiness of `self.database_source` (`None` and `b''` are
falsy). -/
def truthySource (s : Option (List Nat)) : Bool :=
  match s with
  | none => false
  | some b => !b.isEmpty

/-- `VectorscanMatcher._initialize_database`: deserialize the supplied blob
when one was provided (truthy), otherwise compile the signature set; also
reports which acquisition path ran. -/
def vsInitializeDatabase (hs : HsBackend) (m : Matcher VSState) :
    Except VectorscanErrorObj (Nat × Acquisition) :=
  if truthySource m.backend.databaseSource then
    (vectorscanDeserialize hs (m.backend.databaseSource.getD [])).map
      (fun db => (db, .deserialized))
  else
    (vectorscanCompileSignatures hs m.signatureSet).map
      (fun db => (db, .compiled))

/-- `VectorscanMatcher._prepare`: acquire the database and store it on the
matcher.  An exception leaves the matcher untouched (the assignment to
`self.database` never runs). -/
def vsPrepareImpl (hs : HsBackend) (m : Matcher VSState) :
    Except VectorscanErrorObj (Matcher VSState) :=
  (vsInitializeDatabase hs m).map
    (fun r => { m with backend := { m.backend with database := some r.1 } })

/-- `Matcher.prepare`: no-op when already prepared; otherwise run the
backend-specific `_prepare` (`impl`) and only then set the `prepared` flag,
so an exception (`some e`) leaves the state unchanged.  The final `Nat`
counts the `_prepare` invocations this call performed. -/
def Matcher.prepare {σ ε : Type}
    (impl : Matcher σ → Except ε (Matcher σ)) (m : Matcher σ) :
    Matcher σ × Option ε × Nat :=
  if m.prepared then (m, none, 0)
  else
    match impl m with
    | .ok m' => ({ m' with prepared := true }, none, 1)
    | .error e => (m, some e, 1)

/-- `MatchEngine` enum from `matching/matching.py`. -/
inductive MatchEngine where
  | PCRE
  | VECTORSCAN
deriving DecidableEq, Repr

/-- The configuration token (`option`) of each engine. -/
def MatchEngine.option : MatchEngine → String
  | .PCRE => "pcre"
  | .VECTORSCAN => "vectorscan"

/-- Enum member iteration order. -/
def matchEngines : List MatchEngine := [.PCRE, .VECTORSCAN]

/-- `MatchEngine.get_options`. -/
def MatchEngine.getOptions : List String :=
  matchEngines.map MatchEngine.option

/-- `MatchEngine.for_option`: the first engine whose token equals the
requested option, else the raised `ValueError` (the spec's
`UnrecognizedEngine` error) with its message. -/
def MatchEngine.forOption (o : String) : Except String MatchEngine :=
  match matchEngines.find? (fun e => e.option == o) with
  | some e => .ok e
  | none => .error ("Unrecognized engine option: " ++ o)

/-- `MatchEngine.get_default`. -/
def MatchEngine.getDefault : MatchEngine := .PCRE

/-- `MatchEngine.get_default_option`. -/
def MatchEngine.getDefaultOption : String :=
  MatchEngine.getDefault.option

/-- The mutable per-context state of a `VectorscanMatcherContext`: the
inherited match map (`self.matches`, named `matchMap` here since `matches`
is reserved in Lean) and timeout set, plus the `matched` flag (`None` until
the first `process_chunk`). -/
structure VSContextState where
  matchMap : List (Nat × String)
  timeouts : List Nat
  matched : Option Bool
deriving DecidableEq, Repr

/-- `MatcherContext._record_match`: `self.matches[identifier] = matched`
(overwriting any earlier record for the identifier). -/
def recordMatch (m : List (Nat × String)) (identifier : Nat)
    (matched : String) : List (Nat × String) :=
  (identifier, matched) :: m.filter (fun e => e.1 ≠ identifier)

/-- Lookup in the match map. -/
def lookupMatch (m : List (Nat × String)) (identifier : Nat) :
    Option String :=
  (m.find? (fun e => e.1 == identifier)).map (fun e => e.2)

/-- `VectorscanMatcherContext._match_callback`: record the match with an
empty matched-text placeholder, set `matched`, and request backend
termination exactly when the matcher's `match_all` flag is false. -/
def matchCallback (matchAll : Bool) (st : VSContextState)
    (identifier : Nat) : VSContextState × Bool :=
  ({ st with
      matchMap := recordMatch st.matchMap identifier ""
      matched := some true },
   if matchAll then false else true)

/-- Modelled from the spec: `VectorscanStreamScanner.scan` (not part of this
snapshot) — the backend reports each signature occurrence found in the chunk
to the registered callback, in order; when the callback returns non-zero the
backend stops and the scan raises `VectorscanScanTerminated`
(`SCAN_TERMINATED`), here surfaced as the `Bool` component.  `found` is the
abstract list of signature identifiers the backend would report for this
chunk; it is empty exactly when no signature matches. -/
def streamScan (matchAll : Bool) (st : VSContextState)
    (found : List Nat) : VSContextState × Bool :=
  match found with
  | [] => (st, false)
  | identifier :: rest =>
    let r := matchCallback matchAll st identifier
    if r.2 then (r.1, true) else streamScan matchAll r.1 rest

/-- `VectorscanMatcherContext.process_chunk`: clear `matched`, scan the
chunk, translate `VectorscanScanTerminated` into a `true` result, and
otherwise return the `matched` flag. -/
def processChunk (matchAll : Bool) (st : VSContextState)
    (found : List Nat) : VSContextState × Bool :=
  let st0 : VSContextState := { st with matched := some false }
  let r := streamScan matchAll st0 found
  if r.2 then (r.1, true) else (r.1, r.1.matched.getD false)

/-- The empty trie stores no identity anywhere. -/
theorem nodeIdentity_empty (q : List String) :
    nodeIdentity KnownPath.empty q = none := by
  cases q <;> rfl

/-- No node of the empty trie is final. -/
theorem finalAt_empty (q : List String) :
    finalAt KnownPath.empty q = false := by
  rw [finalAt, nodeIdentity_empty]; rfl

/-- `set_identity` stores the identity at the exact target node and leaves
every other node's identity unchanged. -/
theorem nodeIdentity_setIdentity (p : List String) (t : KnownPath)
    (i : Identity) (q : List String) :
    nodeIdentity (setIdentity t p i) q =
      if q = p then some i else nodeIdentity t q := by
  induction p generalizing t q with
  | nil =>
    cases q with
    | nil => rfl
    | cons c q' =>
      cases t with
      | node ident ch =>
        simp [setIdentity, nodeIdentity, KnownPath.children]
  | cons c rest ih =>
    cases q with
    | nil =>
      cases t with
      | node ident ch =>
        simp [setIdentity, nodeIdentity, KnownPath.identity]
    | cons c' q' =>
      cases t with
      | node ident ch =>
        by_cases hc : c' = c
        · subst hc
          by_cases hq : q' = rest
          · subst hq
            simp [setIdentity, nodeIdentity, KnownPath.children,
              updateChildren, ih]
          · have hlist : (c' :: q') ≠ (c' :: rest) := by simp [hq]
            simp only [setIdentity, nodeIdentity, KnownPath.children,
              updateChildren, eq_self_iff_true, if_true, if_pos rfl,
              if_neg hlist]
            rw [ih, if_neg hq]
            cases hch : ch c' with
            | some child => simp [hch]
            | none => simp [hch, nodeIdentity_empty]
        · have hlist : (c' :: q') ≠ (c :: rest) := by simp [hc]
          simp only [setIdentity, nodeIdentity, KnownPath.children,
            updateChildren, if_neg hc, if_neg hlist]

/-- When `find_identity` misses (`None`), no node at any prefix of the
queried path is final (a final prefix node would have stopped the traversal
and been returned). -/
theorem final_false_of_find_none (p : List String) (t : KnownPath)
    (q : List String) (h : findIdentity t p = none) (hq : q <+: p) :
    finalAt t q = false := by
  induction p generalizing t q with
  | nil =>
    have hq' : q = [] := List.prefix_nil.mp hq
    subst hq'
    cases t with
    | node ident ch =>
      simp only [findIdentity, KnownPath.identity] at h
      simp [finalAt, nodeIdentity, KnownPath.identity, h, isFinalO]
  | cons c rest ih =>
    cases t with
    | node ident ch =>
      simp only [findIdentity, KnownPath.identity, KnownPath.children] at h
      by_cases hf : isFinalO ident = true
      · rw [if_pos hf] at h
        subst h
        simp [isFinalO] at hf
      · rw [if_neg hf] at h
        cases q with
        | nil =>
          simp only [finalAt, nodeIdentity, KnownPath.identity]
          exact Bool.not_eq_true _ ▸ hf
        | cons c' q' =>
          obtain ⟨r, hr⟩ := hq
          rw [List.cons_append] at hr
          injection hr with h1 h2
          subst h1
          have hq' : q' <+: rest := ⟨r, h2⟩
          cases hch : ch c' with
          | some child =>
            rw [hch] at h
            simp only [finalAt, nodeIdentity, KnownPath.children, hch]
            exact ih child q' h hq'
          | none =>
            simp [finalAt, nodeIdentity, KnownPath.children, hch, isFinalO]

/-- `q <+: rest` implies `c :: q <+: c :: rest`. -/
theorem prefix_cons_cons {c : String} {q rest : List String}
    (h : q <+: rest) : (c :: q) <+: (c :: rest) := by
  obtain ⟨r, hr⟩ := h
  exact ⟨r, by rw [List.cons_append, hr]⟩

/-- Round trip at the exact path: after `set_identity`, `find_identity` on
the same (normalized) path returns the stored identity, provided no strict
ancestor of the path holds a final identity. -/
theorem find_set_self (p : List String) (t : KnownPath) (i : Identity)
    (h : ∀ q, q <+: p → q ≠ p → finalAt t q = false) :
    findIdentity (setIdentity t p i) p = some i := by
  induction p generalizing t with
  | nil =>
    cases t with
    | node ident ch => rfl
  | cons c rest ih =>
    cases t with
    | node ident ch =>
      have hroot : isFinalO ident = false := by
        simpa [finalAt, nodeIdentity, KnownPath.identity] using
          h [] ⟨c :: rest, rfl⟩ (by simp)
      cases hch : ch c with
      | some child =>
        simp only [setIdentity, KnownPath.identity, KnownPath.children, hch,
          Option.getD_some, findIdentity, hroot, Bool.false_eq_true,
          if_false, updateChildren, if_pos rfl]
        apply ih
        intro q hq hne
        have := h (c :: q) (prefix_cons_cons hq) (by simp [hne])
        simpa [finalAt, nodeIdentity, KnownPath.children, hch] using this
      | none =>
        simp only [setIdentity, KnownPath.identity, KnownPath.children, hch,
          Option.getD_none, findIdentity, hroot, Bool.false_eq_true,
          if_false, updateChildren, if_pos rfl]
        apply ih
        intro q hq hne
        exact finalAt_empty q

/-- Seeding a final identity at `b` in the empty trie makes `find_identity`
resolve every path at or below `b` to that identity (the traversal stops at
the final node). -/
theorem find_seeded_final (b : List String) (g : Identity)
    (hg : g.isFinal = true) (p : List String) (hp : b <+: p) :
    findIdentity (setIdentity KnownPath.empty b g) p = some g := by
  induction b generalizing p with
  | nil =>
    cases p with
    | nil => rfl
    | cons c p' =>
      simp [setIdentity, findIdentity, KnownPath.identity, isFinalO, hg,
        KnownPath.empty]
  | cons c rest ih =>
    obtain ⟨r, hr⟩ := hp
    rw [List.cons_append] at hr
    cases p with
    | nil => exact absurd hr (by simp)
    | cons c' p' =>
      injection hr with h1 h2
      subst h1
      have hp' : rest <+: p' := ⟨r, h2⟩
      simp only [setIdentity, findIdentity, KnownPath.identity,
        KnownPath.children, KnownPath.empty, isFinalO, Bool.false_eq_true,
        if_false, updateChildren, if_pos rfl, Option.getD_none]
      exact ih p' hp'

/-- Storing a final identity anywhere preserves finality of every node. -/
theorem finalAt_set_final (t : KnownPath) (r : List String) (i : Identity)
    (q : List String) (hi : i.isFinal = true) (h : finalAt t q = true) :
    finalAt (setIdentity t r i) q = true := by
  rw [finalAt, nodeIdentity_setIdentity]
  by_cases hq : q = r
  · simp [hq, isFinalO, hi]
  · rw [if_neg hq]
    exact h

/-- Storing any identity at a currently non-final position preserves
finality of every node. -/
theorem finalAt_set_preserve (t : KnownPath) (r : List String)
    (i : Identity) (q : List String) (hr : finalAt t r = false)
    (h : finalAt t q = true) : finalAt (setIdentity t r i) q = true := by
  rw [finalAt, nodeIdentity_setIdentity]
  by_cases hq : q = r
  · subst hq
    rw [h] at hr
    exact absurd hr (by simp)
  · rw [if_neg hq]
    exact h

/-- A fold that stores only final identities preserves finality of every
node. -/
theorem finalAt_foldl_final {β : Type} (l : List β) (f : β → List String)
    (g : β → Identity) (hg : ∀ x, (g x).isFinal = true) (t : KnownPath)
    (q : List String) (h : finalAt t q = true) :
    finalAt (l.foldl (fun t' x => setIdentity t' (f x) (g x)) t) q
      = true := by
  induction l generalizing t with
  | nil => exact h
  | cons x xs ih =>
    exact ih (setIdentity t (f x) (g x)) (finalAt_set_final t (f x) (g x) q
      (hg x) h)

/-- The seeding done on discovery success preserves finality of every node,
given that the lookup that triggered discovery missed and the discovered
root is an ancestor of the queried path. -/
theorem finalAt_seedSite (t : KnownPath) (p : List String) (s : SiteInfo)
    (q : List String) (hn : findIdentity t p = none)
    (hcore : s.corePath <+: p) (h : finalAt t q = true) :
    finalAt (seedSite t s) q = true := by
  unfold seedSite
  have h1 : finalAt (setIdentity t s.corePath
      (.group .CORE s.corePath (some s.siteRef) none false)) q = true :=
    finalAt_set_preserve t s.corePath _ q
      (final_false_of_find_none p t s.corePath hn hcore) h
  have h2 := finalAt_foldl_final s.plugins (fun pl => pl.path)
    (fun pl => .group .PLUGIN pl.path (some s.siteRef) (some pl.ref) true)
    (fun _ => rfl) _ q h1
  exact finalAt_foldl_final s.themes (fun th => th.path)
    (fun th => .group .THEME th.path (some s.siteRef) (some th.ref) true)
    (fun _ => rfl) _ q h2

/-- `_identify_new_path` preserves finality of every node. -/
theorem finalAt_identifyNewPath (discover : Discover)
    (hd : goodDiscover discover) (t : KnownPath) (p q : List String)
    (hn : findIdentity t p = none) (h : finalAt t q = true) :
    finalAt (identifyNewPath discover t p) q = true := by
  unfold identifyNewPath
  cases hdp : discover p with
  | some s => exact finalAt_seedSite t p s q hn (hd p s hdp) h
  | none =>
    exact finalAt_set_preserve t p _ q
      (final_false_of_find_none p t p hn (List.prefix_refl p)) h

/-- The resolution phase of `identify` (which only ever caches final
`KnownFileIdentity` values) preserves finality of every node. -/
theorem finalAt_identifyKnown (t : KnownPath) (p q : List String)
    (h : finalAt t q = true) : finalAt (identifyKnown t p).2 q = true := by
  unfold identifyKnown
  rcases hfi : findIdentity t p with _ | i
  · exact h
  · cases i with
    | plain ty s e => exact h
    | known ty lp s e => exact h
    | group ty b s e f =>
      by_cases hpb : p = b
      · simp only [if_pos hpb]
        exact finalAt_set_final t p _ q rfl h
      · simp only [if_neg hpb]
        cases hrel : relativeTo p b with
        | some suffix => exact finalAt_set_final t p _ q rfl h
        | none => exact h

/-- One `identify` call preserves finality of every node. -/
theorem finalAt_applyOp (discover : Discover) (hd : goodDiscover discover)
    (t : KnownPath) (op : FIOp) (q : List String)
    (h : finalAt t q = true) : finalAt (applyOp discover t op) q = true := by
  unfold applyOp identify identifyC
  rcases hfi : findIdentity t op.path with _ | i
  · cases hnew : op.identifyNew with
    | true =>
      exact finalAt_identifyKnown _ op.path q
        (finalAt_identifyNewPath discover hd t op.path q hfi h)
    | false => exact h
  · exact finalAt_identifyKnown t op.path q h

/-- `find?` is unchanged by removing only elements the predicate rejects. -/
theorem find?_filter_of_imp {β : Type} (l : List β) (p q : β → Bool)
    (himp : ∀ e, p e = true → q e = true) :
    (l.filter q).find? p = l.find? p := by
  induction l with
  | nil => rfl
  | cons e rest ih =>
    cases hq : q e with
    | true =>
      rw [List.filter_cons_of_pos hq]
      cases hp : p e with
      | true =>
        rw [List.find?_cons_of_pos _ hp, List.find?_cons_of_pos _ hp]
      | false =>
        rw [List.find?_cons_of_neg _ (by simp [hp]),
          List.find?_cons_of_neg _ (by simp [hp])]
        exact ih
    | false =>
      rw [List.filter_cons_of_neg (by simp [hq])]
      cases hp : p e with
      | true => exact absurd (himp e hp) (by simp [hq])
      | false =>
        rw [List.find?_cons_of_neg _ (by simp [hp])]
        exact ih

/-- A recorded match is found at its identifier. -/
theorem lookupMatch_record_self (mm : List (Nat × String)) (id : Nat)
    (s : String) : lookupMatch (recordMatch mm id s) id = some s := by
  unfold lookupMatch recordMatch
  rw [List.find?_cons_of_pos _ (by simp)]
  rfl

/-- Recording one identifier leaves lookups of other identifiers
unchanged. -/
theorem lookupMatch_record_other (mm : List (Nat × String)) (id id' : Nat)
    (s : String) (h : id ≠ id') :
    lookupMatch (recordMatch mm id' s) id = lookupMatch mm id := by
  unfold lookupMatch recordMatch
  rw [List.find?_cons_of_neg _ (by simp [Ne.symm h])]
  rw [find?_filter_of_imp mm (fun e => e.1 == id)
    (fun e => decide (e.1 ≠ id'))
    (by
      intro e he
      have he1 : e.1 = id := by simpa using he
      simp [he1, h])]

/-- With `match_all = true` the callback never requests termination, so the
scan never raises `VectorscanScanTerminated`. -/
theorem streamScan_true_no_term (st : VSContextState) (l : List Nat) :
    (streamScan true st l).2 = false := by
  induction l generalizing st with
  | nil => rfl
  | cons m rest ih => exact ih _

/-- Once the `matched` flag is set it stays set for the rest of the scan. -/
theorem streamScan_matched_preserved (matchAll : Bool) (st : VSContextState)
    (l : List Nat) (h : st.matched = some true) :
    (streamScan matchAll st l).1.matched = some true := by
  induction l generalizing st with
  | nil => exact h
  | cons m rest ih =>
    cases matchAll with
    | true => exact ih _ rfl
    | false => rfl

/-- With `match_all = true`, every identifier reported for the chunk (and
every identifier already recorded with the empty placeholder) ends up in the
match map with the empty matched-text placeholder. -/
theorem streamScan_true_records (l : List Nat) (st : VSContextState)
    (m : Nat)
    (h : m ∈ l ∨ lookupMatch st.matchMap m = some "") :
    lookupMatch (streamScan true st l).1.matchMap m = some "" := by
  induction l generalizing st with
  | nil =>
    cases h with
    | inl hm => cases hm
    | inr hm => exact hm
  | cons x rest ih =>
    apply ih
    by_cases hmx : m = x
    · right
      subst hmx
      exact lookupMatch_record_self st.matchMap m ""
    · cases h with
      | inl hm =>
        cases List.mem_cons.mp hm with
        | inl h1 => exact absurd h1 hmx
        | inr h2 => exact Or.inl h2
      | inr hm =>
        right
        rw [show (matchCallback true st x).1.matchMap
            = recordMatch st.matchMap x "" from rfl,
          lookupMatch_record_other st.matchMap m x "" hmx]
        exact hm

/-- `identify` when the initial lookup finds an identity: no discovery. -/
theorem identifyC_found (discover : Discover) (t : KnownPath)
    (p : List String) (new : Bool) (i : Identity)
    (h : findIdentity t p = some i) :
    identifyC discover t p new = (identifyKnown t p, 0) := by
  unfold identifyC
  rw [h]

/-- `identify` when the initial lookup misses and discovery is allowed:
seed via `_identify_new_path` (one discovery attempt), then re-resolve. -/
theorem identifyC_none_true (discover : Discover) (t : KnownPath)
    (p : List String) (h : findIdentity t p = none) :
    identifyC discover t p true
      = (identifyKnown (identifyNewPath discover t p) p, 1) := by
  unfold identifyC
  rw [h]

/-- Resolution of a `GroupIdentity` whose base is an ancestor of the query:
`identify` converts it to a `KnownFileIdentity` (bare file name when the
query equals the base, relative path otherwise) and caches it at the exact
queried path. -/
theorem identify_group_resolves (discover : Discover) (t : KnownPath)
    (p b : List String) (ty : FileType) (site ext : Option Nat) (fin : Bool)
    (hfind : findIdentity t p = some (.group ty b site ext fin))
    (hp : b <+: p) :
    identify discover t p true
      = (some (.known ty (if p = b then .name (pathName p)
            else .rel (p.drop b.length)) site ext),
         setIdentity t p (.known ty (if p = b then .name (pathName p)
            else .rel (p.drop b.length)) site ext)) := by
  unfold identify
  rw [identifyC_found discover t p true _ hfind]
  show identifyKnown t p = _
  unfold identifyKnown
  rw [hfind]
  by_cases hpb : p = b
  · simp only [if_pos hpb]
  · have hrel : relativeTo p b = some (p.drop b.length) := by
      unfold relativeTo
      rw [if_pos hp]
    simp only [if_neg hpb, hrel]

/-- C2: for every sequence of `FileIdentifier.identify` operations (with or
without discovery, including the seeding they perform), once a trie node's
identity is final (a `GroupIdentity` with `final=true` or a
`KnownFileIdentity`), no later operation replaces it with a non-final
identity — finality of every node is preserved.  Discovery is the external
`WordpressSite` collaborator, constrained (per the spec) to report an
installation root that is an ancestor of the queried path. -/
theorem c2_final_never_demoted (discover : Discover)
    (hd : goodDiscover discover) (ops : List FIOp) (t : KnownPath)
    (q : List String) (h : finalAt t q = true) :
    finalAt (applyOps discover t ops) q = true := by
  induction ops generalizing t with
  | nil => exact h
  | cons op rest ih =>
    exact ih (applyOp discover t op) (finalAt_applyOp discover hd t op q h)

/-- Witness for C2: a node holding a final `KnownFileIdentity` stays final
across two further `identify` calls (one resolving through it, one
triggering failed discovery elsewhere). -/
theorem c2_witness :
    finalAt (applyOps (fun _ => none)
      (setIdentity KnownPath.empty ["/", "a"]
        (.known .PLUGIN (.name "a") none none))
      [⟨["/", "a", "b"], true⟩, ⟨["/", "c"], true⟩]) ["/", "a"] = true :=
  c2_final_never_demoted (fun _ => none)
    (fun _ _ h => Option.noConfusion h) _ _ _ (by decide)

/-- C3: after seeding a final `GroupIdentity` with base path `b`, every
query `p` at or below `b` resolves to a `KnownFileIdentity` of the same
component type whose `local_path` is `p` relative to `b` (the bare file
name when `p = b`), and the resolved identity is cached at exactly `p`
(every other node is untouched); no discovery is consulted. -/
theorem c3_trie_finality (ty : FileType) (site ext : Option Nat)
    (b p : List String) (discover : Discover) (hp : b <+: p) :
    (identify discover
        (setIdentity KnownPath.empty b (.group ty b site ext true))
        p true).1
      = some (.known ty (if p = b then .name (pathName p)
          else .rel (p.drop b.length)) site ext)
    ∧ nodeIdentity (identify discover
        (setIdentity KnownPath.empty b (.group ty b site ext true))
        p true).2 p
      = some (.known ty (if p = b then .name (pathName p)
          else .rel (p.drop b.length)) site ext)
    ∧ ∀ q, q ≠ p → nodeIdentity (identify discover
        (setIdentity KnownPath.empty b (.group ty b site ext true))
        p true).2 q
      = nodeIdentity
          (setIdentity KnownPath.empty b (.group ty b site ext true)) q := by
  have hfind : findIdentity
      (setIdentity KnownPath.empty b (.group ty b site ext true)) p
      = some (.group ty b site ext true) :=
    find_seeded_final b (.group ty b site ext true) rfl p hp
  rw [identify_group_resolves discover _ p b ty site ext true hfind hp]
  refine ⟨rfl, ?_, ?_⟩
  · rw [nodeIdentity_setIdentity, if_pos rfl]
  · intro q hq
    rw [nodeIdentity_setIdentity, if_neg hq]

/-- Witness for C3, on the spec's own example: querying
`/base/plugin-x/sub/dir/file.php` below the final plugin identity at
`/base/plugin-x` yields `KnownFileIdentity(plugin, "sub/dir/file.php")`. -/
theorem c3_witness :
    (identify (fun _ => none)
        (setIdentity KnownPath.empty ["/", "base", "plugin-x"]
          (.group .PLUGIN ["/", "base", "plugin-x"] (some 0) (some 1) true))
        ["/", "base", "plugin-x", "sub", "dir", "file.php"] true).1
      = some (.known .PLUGIN (.rel ["sub", "dir", "file.php"])
          (some 0) (some 1)) := by
  have h := (c3_trie_finality .PLUGIN (some 0) (some 1)
    ["/", "base", "plugin-x"]
    ["/", "base", "plugin-x", "sub", "dir", "file.php"]
    (fun _ => none) ⟨["sub", "dir", "file.php"], rfl⟩).1
  simpa using h

/-- C4: a lookup miss triggers exactly one discovery attempt; on discovery
failure an `Unclassified` identity is stored at exactly the queried path,
so repeating the same query (or any query whose lookup already resolves)
performs zero discovery attempts; every single `identify` call performs at
most one discovery attempt. -/
theorem c4_discovery_at_most_once (discover : Discover) (t : KnownPath)
    (p : List String) (hn : findIdentity t p = none)
    (hd : discover p = none) :
    (identifyC discover t p true).2 = 1
    ∧ (identifyC discover t p true).1.1
        = some (.plain .UNKNOWN none none)
    ∧ nodeIdentity (identifyC discover t p true).1.2 p
        = some (.plain .UNKNOWN none none)
    ∧ (identifyC discover (identifyC discover t p true).1.2 p true).2 = 0
    ∧ (∀ t2 q, findIdentity t2 q ≠ none →
        (identifyC discover t2 q true).2 = 0)
    ∧ (∀ t2 q new, (identifyC discover t2 q new).2 ≤ 1) := by
  have hseed : identifyNewPath discover t p
      = setIdentity t p (.plain .UNKNOWN none none) := by
    unfold identifyNewPath
    rw [hd]
  have hfind' : findIdentity (setIdentity t p (.plain .UNKNOWN none none)) p
      = some (.plain .UNKNOWN none none) :=
    find_set_self p t _ (fun q hq _ => final_false_of_find_none p t q hn hq)
  have hik : identifyKnown (setIdentity t p (.plain .UNKNOWN none none)) p
      = (some (.plain .UNKNOWN none none),
         setIdentity t p (.plain .UNKNOWN none none)) := by
    unfold identifyKnown
    rw [hfind']
  have hmain : identifyC discover t p true
      = ((some (.plain .UNKNOWN none none),
          setIdentity t p (.plain .UNKNOWN none none)), 1) := by
    rw [identifyC_none_true discover t p hn, hseed, hik]
  refine ⟨by rw [hmain], by rw [hmain], ?_, ?_, ?_, ?_⟩
  · rw [hmain]
    show nodeIdentity (setIdentity t p (.plain .UNKNOWN none none)) p = _
    rw [nodeIdentity_setIdentity, if_pos rfl]
  · rw [hmain]
    show (identifyC discover
      (setIdentity t p (.plain .UNKNOWN none none)) p true).2 = 0
    rw [identifyC_found discover _ p true _ hfind']
  · intro t2 q hfq
    unfold identifyC
    cases hf2 : findIdentity t2 q with
    | none => exact absurd hf2 hfq
    | some i => rfl
  · intro t2 q new
    unfold identifyC
    cases hf2 : findIdentity t2 q with
    | none => cases new <;> simp
    | some i => simp

/-- Witness for C4: a failed discovery for `/tmp/x` on an empty trie is
attempted exactly once. -/
theorem c4_witness :
    (identifyC (fun _ => none) KnownPath.empty ["/", "tmp", "x"] true).2
      = 1 :=
  (c4_discovery_at_most_once (fun _ => none) KnownPath.empty
    ["/", "tmp", "x"] rfl rfl).1

/-- C9: `set_identity` followed by `find_identity` on the same trie returns
the stored identity, provided no strict ancestor of the normalized path is
final; and since both operations normalize first, any two raw paths with
the same normalized form are interchangeable. -/
theorem c9_set_find_round_trip {α : Type} (prep : α → List String)
    (t : KnownPath) (p1 p2 : α) (i : Identity)
    (hnorm : prep p1 = prep p2)
    (hanc : ∀ q, q <+: prep p1 → q ≠ prep p1 → finalAt t q = false) :
    findIdentityP prep (setIdentityP prep t p1 i) p2 = some i
    ∧ findIdentityP prep t p1 = findIdentityP prep t p2
    ∧ setIdentityP prep t p1 i = setIdentityP prep t p2 i := by
  refine ⟨?_, ?_, ?_⟩
  · unfold findIdentityP setIdentityP
    rw [← hnorm]
    exact find_set_self (prep p1) t i hanc
  · unfold findIdentityP
    rw [hnorm]
  · unfold setIdentityP
    rw [hnorm]

/-- Witness for C9: two raw paths (here abstract handles `0` and `1`)
normalizing to `/w/x` round-trip through `set_identity`/`find_identity`
interchangeably on the empty trie. -/
theorem c9_witness :
    findIdentityP (fun _ : Nat => ["/", "w", "x"])
      (setIdentityP (fun _ : Nat => ["/", "w", "x"]) KnownPath.empty 0
        (.plain .UNKNOWN none none)) 1
      = some (.plain .UNKNOWN none none) :=
  (c9_set_find_round_trip (fun _ : Nat => ["/", "w", "x"])
    KnownPath.empty 0 1 (.plain .UNKNOWN none none) rfl
    (fun q _ _ => finalAt_empty q)).1

/-- C1: for every malformed signature pattern — every compilation on which
the backend reports `COMPILER_ERROR` — `vectorscan_compile` fails with a
`VectorscanCompilerError` that carries the backend compiler's diagnostic
message for the offending pattern in its `args` (exposed via `str(e)`),
together with the `COMPILER_ERROR` member, not merely a generic
compilation-failure code. -/
theorem c1_compilation_error_carries_message (hs : HsBackend)
    (patterns : List (Nat × String)) (mode flags : Nat)
    (hcode : (hs.compileMulti patterns mode flags).code
      = VectorscanErrorType.COMPILER_ERROR.toCode) :
    vectorscanCompile hs patterns mode flags
      = .error ⟨.COMPILER_ERROR, true,
          [.text (hs.compileMulti patterns mode flags).message]⟩ := by
  have h1 : assertCompilationSuccess
      (hs.compileMulti patterns mode flags).code
      (hs.compileMulti patterns mode flags).message
      = some (vectorscanCompilerErrorMk
          (hs.compileMulti patterns mode flags).message) := by
    rw [hcode]
    rfl
  simp only [vectorscanCompile]
  rw [h1]
  rfl

/-- Witness for C1: a backend rejecting the pattern `"("` with the message
`"missing closing parenthesis"` yields a compiler error object whose `args`
carry exactly that diagnostic. -/
theorem c1_witness :
    vectorscanCompile
      ⟨fun _ _ _ => ⟨-4, "missing closing parenthesis", 0⟩,
        fun _ => (0, 0)⟩
      [(1, "(")] VectorscanMode.STREAM
      (VectorscanFlags.CASELESS ||| VectorscanFlags.SINGLEMATCH |||
        VectorscanFlags.ALLOWEMPTY)
      = .error ⟨.COMPILER_ERROR, true,
          [.text "missing closing parenthesis"]⟩ :=
  c1_compilation_error_carries_message
    ⟨fun _ _ _ => ⟨-4, "missing closing parenthesis", 0⟩, fun _ => (0, 0)⟩
    [(1, "(")] VectorscanMode.STREAM
    (VectorscanFlags.CASELESS ||| VectorscanFlags.SINGLEMATCH |||
      VectorscanFlags.ALLOWEMPTY) rfl

/-- C5: `process_chunk` returns true iff at least one signature matched in
this call; with `match_all = false` the callback records the first match and
requests backend termination (translated to `true`, not an error); with
`match_all = true` the callback never requests termination and the whole
chunk's reported matches are all recorded. -/
theorem c5_process_chunk (matchAll : Bool) (st : VSContextState)
    (found : List Nat) :
    ((processChunk matchAll st found).2 = true ↔ found ≠ [])
    ∧ (matchAll = false → ∀ m rest, found = m :: rest →
        (streamScan false { st with matched := some false } found).2 = true
        ∧ (processChunk matchAll st found).1.matchMap
            = recordMatch st.matchMap m "")
    ∧ (matchAll = true →
        (streamScan true { st with matched := some false } found).2 = false
        ∧ ∀ m ∈ found,
            lookupMatch (processChunk matchAll st found).1.matchMap m
              = some "") := by
  refine ⟨?_, ?_, ?_⟩
  · cases found with
    | nil =>
      cases matchAll <;> simp [processChunk, streamScan]
    | cons m rest =>
      cases matchAll with
      | false => simp [processChunk, streamScan, matchCallback]
      | true =>
        have hterm := streamScan_true_no_term
          { st with matched := some false } (m :: rest)
        have hmatched : (streamScan true
            { st with matched := some false } (m :: rest)).1.matched
            = some true := by
          show (streamScan true (matchCallback true
            { st with matched := some false } m).1 rest).1.matched = some true
          exact streamScan_matched_preserved true _ rest rfl
        simp [processChunk, hterm, hmatched]
  · rintro rfl m rest rfl
    constructor
    · rfl
    · rfl
  · rintro rfl
    refine ⟨streamScan_true_no_term _ found, ?_⟩
    intro m hm
    have hterm := streamScan_true_no_term
      { st with matched := some false } found
    have hrec := streamScan_true_records found
      { st with matched := some false } m (Or.inl hm)
    simpa [processChunk, hterm] using hrec

/-- Witness for C5: a chunk in which signatures 1 and 2 both occur yields
`true` in first-match mode with only the first recorded, and in match-all
mode both are recorded without early termination. -/
theorem c5_witness :
    ((processChunk false ⟨[], [], none⟩ [1, 2]).2 = true ↔ ([1, 2] : List Nat) ≠ [])
    ∧ ((processChunk false ⟨[], [], none⟩ [1, 2]).1.matchMap
        = recordMatch [] 1 "")
    ∧ (streamScan true ⟨[], [], some false⟩ [1, 2]).2 = false
    ∧ lookupMatch (processChunk true ⟨[], [], none⟩ [1, 2]).1.matchMap 2
        = some "" := by
  have h1 := c5_process_chunk false ⟨[], [], none⟩ [1, 2]
  have h2 := c5_process_chunk true ⟨[], [], none⟩ [1, 2]
  exact ⟨h1.1, (h1.2.1 rfl 1 [2] rfl).2, (h2.2.2 rfl).1,
    (h2.2.2 rfl).2 2 (by decide)⟩

/-- C6: once `prepare()` succeeds, a second call is a no-op (same state, no
error, zero `_prepare` invocations); a single call performs at most one
database acquisition; and when a (truthy) precompiled blob was supplied the
acquisition is a deserialization — compilation is skipped entirely —
while without one it is a compilation. -/
theorem c6_prepare_idempotent (hs : HsBackend) (m m1 : Matcher VSState)
    (n : Nat)
    (h : Matcher.prepare (vsPrepareImpl hs) m = (m1, none, n)) :
    Matcher.prepare (vsPrepareImpl hs) m1 = (m1, none, 0)
    ∧ n ≤ 1
    ∧ (truthySource m.backend.databaseSource = true →
        ∀ db a, vsInitializeDatabase hs m = .ok (db, a) →
          a = .deserialized)
    ∧ (truthySource m.backend.databaseSource = false →
        ∀ db a, vsInitializeDatabase hs m = .ok (db, a) → a = .compiled) := by
  have hprep1 : m1.prepared = true ∧ n ≤ 1 := by
    unfold Matcher.prepare at h
    by_cases hp : m.prepared
    · rw [if_pos hp] at h
      simp only [Prod.mk.injEq] at h
      obtain ⟨h1, _, h3⟩ := h
      exact ⟨h1 ▸ hp, by omega⟩
    · rw [if_neg hp] at h
      cases himpl : vsPrepareImpl hs m with
      | ok m' =>
        rw [himpl] at h
        simp only [Prod.mk.injEq] at h
        obtain ⟨h1, _, h3⟩ := h
        refine ⟨?_, by omega⟩
        rw [← h1]
      | error e =>
        rw [himpl] at h
        simp only [Prod.mk.injEq] at h
        exact absurd h.2.1 (by simp)
  refine ⟨?_, hprep1.2, ?_, ?_⟩
  · unfold Matcher.prepare
    rw [if_pos hprep1.1]
  · intro htruthy db a hinit
    unfold vsInitializeDatabase at hinit
    rw [htruthy, if_pos rfl] at hinit
    cases hdes : vectorscanDeserialize hs (m.backend.databaseSource.getD [])
      with
    | ok db' =>
      rw [hdes] at hinit
      have := (Except.ok.injEq .. ▸ hinit : (db', Acquisition.deserialized)
        = (db, a))
      exact ((Prod.mk.injEq .. ▸ this).2).symm
    | error e =>
      rw [hdes] at hinit
      exact Except.noConfusion hinit
  · intro htruthy db a hinit
    unfold vsInitializeDatabase at hinit
    rw [htruthy, if_neg Bool.false_ne_true] at hinit
    cases hcomp : vectorscanCompileSignatures hs m.signatureSet with
    | ok db' =>
      rw [hcomp] at hinit
      have := (Except.ok.injEq .. ▸ hinit : (db', Acquisition.compiled)
        = (db, a))
      exact ((Prod.mk.injEq .. ▸ this).2).symm
    | error e =>
      rw [hcomp] at hinit
      exact Except.noConfusion hinit

/-- Witness for C6: preparing an unprepared vectorscan matcher against a
backend whose compilation succeeds, then preparing again, is a no-op the
second time. -/
theorem c6_witness :
    Matcher.prepare
      (vsPrepareImpl ⟨fun _ _ _ => ⟨0, "", 42⟩, fun _ => (0, 43)⟩)
      (Matcher.prepare
        (vsPrepareImpl ⟨fun _ _ _ => ⟨0, "", 42⟩, fun _ => (0, 43)⟩)
        ⟨[(1, "evil")], 1, false, false, false, ⟨none, none, none⟩⟩).1
    = ((Matcher.prepare
        (vsPrepareImpl ⟨fun _ _ _ => ⟨0, "", 42⟩, fun _ => (0, 43)⟩)
        ⟨[(1, "evil")], 1, false, false, false, ⟨none, none, none⟩⟩).1,
       none, 0) :=
  (c6_prepare_idempotent ⟨fun _ _ _ => ⟨0, "", 42⟩, fun _ => (0, 43)⟩
    ⟨[(1, "evil")], 1, false, false, false, ⟨none, none, none⟩⟩ _ 1 rfl).1

/-- C7: every supported engine token maps back to its engine, every other
token fails with the unrecognized-engine error, and the default backend is
the fixed member `PCRE` (token `"pcre"`). -/
theorem c7_engine_selector :
    (∀ e : MatchEngine, MatchEngine.forOption e.option = .ok e)
    ∧ (∀ o : String, o ∉ MatchEngine.getOptions →
        MatchEngine.forOption o
          = .error ("Unrecognized engine option: " ++ o))
    ∧ MatchEngine.getDefault = .PCRE
    ∧ MatchEngine.getDefaultOption = "pcre" := by
  refine ⟨?_, ?_, rfl, rfl⟩
  · intro e
    cases e <;> rfl
  · intro o ho
    have hne : o ≠ "pcre" ∧ o ≠ "vectorscan" := by
      constructor <;> (intro hcontra; apply ho; subst hcontra)
      · exact List.mem_cons_self _ _
      · exact List.mem_cons_of_mem _ (List.mem_cons_self _ _)
    unfold MatchEngine.forOption
    rw [show matchEngines.find? (fun e => e.option == o) = none from
      List.find?_eq_none.mpr (by
        intro e he
        cases e <;> simp [MatchEngine.option, Ne.symm hne.1, Ne.symm hne.2])]

/-- Witness for C7: the token `"re2"` is rejected with the
unrecognized-engine error message. -/
theorem c7_witness :
    MatchEngine.forOption "re2"
      = .error ("Unrecognized engine option: " ++ "re2") :=
  c7_engine_selector.2.1 "re2" (by decide)

/-- C8: `_assert_success` raises nothing on the success code, raises the
matching enumerated member for every code some member carries, and
normalizes every other integer to `UNKNOWN_ERROR` instead of propagating
the raw code. -/
theorem c8_error_code_normalization (c : Int) :
    (c = 0 → assertSuccess c = none)
    ∧ (∀ et : VectorscanErrorType, et.toCode = c → et ≠ .SUCCESS →
        assertSuccess c = some (vectorscanErrorMk et))
    ∧ ((∀ et : VectorscanErrorType, et.toCode ≠ c) →
        assertSuccess c = some (vectorscanErrorMk .UNKNOWN_ERROR)) := by
  have hofc : ∀ et : VectorscanErrorType,
      VectorscanErrorType.ofCode et.toCode = some et := by
    intro et
    cases et <;> rfl
  refine ⟨?_, ?_, ?_⟩
  · rintro rfl
    rfl
  · intro et het hne
    subst het
    unfold assertSuccess
    rw [hofc et]
    simp only [Option.getD_some]
    rw [if_neg hne]
  · intro h
    unfold assertSuccess
    rw [show VectorscanErrorType.ofCode c = none from
      List.find?_eq_none.mpr (by
        intro et _
        simp [h et])]
    rfl

/-- Witness for C8: the unassigned code `-7` (the gap in the enum)
normalizes to `UNKNOWN_ERROR`, and code `-3` raises `SCAN_TERMINATED`. -/
theorem c8_witness :
    assertSuccess (-7) = some (vectorscanErrorMk .UNKNOWN_ERROR)
    ∧ assertSuccess (-3) = some (vectorscanErrorMk .SCAN_TERMINATED) :=
  ⟨(c8_error_code_normalization (-7)).2.2 (by decide),
   (c8_error_code_normalization (-3)).2.1 .SCAN_TERMINATED (by decide)
     (by decide)⟩

/-- C10: if `_prepare` raises, `prepare` leaves the matcher unchanged with
the `prepared` flag still false, and a subsequent `prepare` call attempts
preparation again (another `_prepare` invocation) instead of treating the
matcher as prepared. -/
theorem c10_prepare_failure_retries {σ ε : Type}
    (impl : Matcher σ → Except ε (Matcher σ)) (m : Matcher σ) (e : ε)
    (hp : m.prepared = false) (hi : impl m = .error e) :
    Matcher.prepare impl m = (m, some e, 1)
    ∧ (Matcher.prepare impl m).1.prepared = false
    ∧ Matcher.prepare impl ((Matcher.prepare impl m).1)
        = (m, some e, 1) := by
  have h1 : Matcher.prepare impl m = (m, some e, 1) := by
    unfold Matcher.prepare
    rw [if_neg (by rw [hp]; exact Bool.false_ne_true), hi]
  exact ⟨h1, by rw [h1]; exact hp, by rw [h1]; exact h1⟩

/-- Witness for C10: a backend whose compiler rejects the sole pattern
leaves the matcher unprepared, and the retry invokes `_prepare` again. -/
theorem c10_witness :
    Matcher.prepare
      (vsPrepareImpl ⟨fun _ _ _ => ⟨-4, "bad pattern", 0⟩,
        fun _ => (-5, 0)⟩)
      ⟨[(1, "(")], 1, false, false, false, ⟨none, none, none⟩⟩
    = (⟨[(1, "(")], 1, false, false, false, ⟨none, none, none⟩⟩,
       some (vectorscanCompilerErrorMk "bad pattern"), 1) :=
  (c10_prepare_failure_retries
    (vsPrepareImpl ⟨fun _ _ _ => ⟨-4, "bad pattern", 0⟩, fun _ => (-5, 0)⟩)
    ⟨[(1, "(")], 1, false, false, false, ⟨none, none, none⟩⟩
    (vectorscanCompilerErrorMk "bad pattern") rfl rfl).1

end Wordfence
